import Mathlib

set_option maxRecDepth 8000

/-!
Shallow embedding of `ShellPkg/Library/UefiShellLevel2CommandsLib/Mv.c`
(CloverBootloader, `Patches_for_EDK2`).  CHAR16 strings are modelled as
lists of characters (null-free, as C strings cannot contain an interior
null), nullable pointers as `Option`, and collaborator calls
(file-store lookup, copy/delete primitives, the interactive prompt, the
execution-break flag) as explicit oracle parameters and event traces.
-/

/-- CHAR16 strings, modelled as character lists. -/
abbrev Str := List Char

/-- The EFI_STATUS values Mv.c distinguishes; every other error collapses
to `otherError`. -/
inductive EfiStatus where
  | success
  | writeProtected
  | securityViolation
  | outOfResources
  | deviceError
  | accessDenied
  | invalidParameter
  | otherError
deriving DecidableEq

/-- EFI_ERROR(Status): true for every status except success. -/
def EfiStatus.isError : EfiStatus → Bool
  | .success => false
  | _ => true

/-- The SHELL_STATUS values used by Mv.c. -/
inductive ShellStatus where
  | success
  | invalidParameter
  | outOfResources
  | securityViolation
  | writeProtected
  | deviceError
  | accessDenied
  | aborted
  | notFound
deriving DecidableEq

/-- The prompt answers offered by ShellPromptResponseTypeYesNoAllCancel. -/
inductive PromptResponse where
  | yes
  | no
  | all
  | cancel
deriving DecidableEq

/-- EDK2 `StrStr`: offset of the first occurrence of `needle` in `hay`
(`some 0` for an empty needle, since StrStr then returns the string itself);
`none` when there is no occurrence (StrStr returns NULL). -/
def strStrIdx : Str → Str → Option Nat
  | [], needle => if needle.isPrefixOf [] then some 0 else none
  | c :: t, needle =>
    if needle.isPrefixOf (c :: t) then some 0
    else (strStrIdx t needle).map (· + 1)

/-- EDK2 `CharToUpper`: map a lowercase ASCII letter to uppercase. -/
def upChar (c : Char) : Char :=
  if 'a' ≤ c ∧ c ≤ 'z' then Char.ofNat (c.toNat - 32) else c

/-- `StringNoCaseCompare(&a, &b) == 0`: the strings agree up to ASCII case. -/
def strNoCaseEq (a b : Str) : Bool := a.map upChar == b.map upChar

/-- The for-loop at Mv.c:125 that skips every leading backslash. -/
def dropLeadingBs (s : Str) : Str := s.dropWhile (· == '\\')

/-- The while-loops at Mv.c:127-129 and Mv.c:569-571 that null out every
trailing backslash one at a time. -/
def stripTrailingBs (s : Str) : Str := (s.reverse.dropWhile (· == '\\')).reverse

/-- EFI_FILE_READ_ONLY attribute bit. -/
def EFI_FILE_READ_ONLY : Nat := 1

/-- `IsValidMove` (Mv.c:85-147).  Checks, in order: the source is not the
current working directory (Mv.c:101, `StrCmp`); neither side is read-only
and the source was not opened write-protected (Mv.c:112-115); and, after
skipping leading and stripping trailing backslashes from a copy of the
destination (Mv.c:125-129), the destination is neither equal to the source
(`StrCmp`, Mv.c:137) nor has the source as a leading substring
(`StrStr(DestPathWalker, SourcePath) == DestPathWalker`, Mv.c:138). -/
def isValidMove (sourcePath : Str) (cwd : Option Str) (destPath : Str)
    (attr destAttr : Nat) (fileStatus : EfiStatus) : Bool :=
  if (match cwd with | some c => sourcePath == c | none => false) then false
  else if (attr &&& EFI_FILE_READ_ONLY != 0) || (fileStatus == EfiStatus.writeProtected)
      || (destAttr &&& EFI_FILE_READ_ONLY != 0) then false
  else
    let w := stripTrailingBs (dropLeadingBs destPath)
    if (w == sourcePath) || (strStrIdx w sourcePath == some 0) then false
    else true

/-- The three string buffers visible to `IsBetweenFileSystem`. -/
structure Bufs where
  full : Str
  cwd : Option Str
  dest : Str
deriving DecidableEq

/-- Where a colon delimiter was found: inside FullName, Cwd, or DestPath. -/
inductive ColonLoc where
  | inFull (i : Nat)
  | inCwd (i : Nat)
  | inDest (i : Nat)
deriving DecidableEq

/-- `Test = StrStr(FullName, ":")`, falling back to Cwd (Mv.c:41-44). -/
def findColonFull (b : Bufs) : Option ColonLoc :=
  match strStrIdx b.full [':'] with
  | some i => some (ColonLoc.inFull i)
  | none =>
    match b.cwd with
    | some c => (strStrIdx c [':']).map ColonLoc.inCwd
    | none => none

/-- `Test1 = StrStr(DestPath, ":")`, falling back to Cwd (Mv.c:45-48). -/
def findColonDest (b : Bufs) : Option ColonLoc :=
  match strStrIdx b.dest [':'] with
  | some i => some (ColonLoc.inDest i)
  | none =>
    match b.cwd with
    | some c => (strStrIdx c [':']).map ColonLoc.inCwd
    | none => none

/-- Write one character through a `ColonLoc` pointer (`*Test = …`). -/
def writeAt (b : Bufs) (l : ColonLoc) (ch : Char) : Bufs :=
  match l with
  | ColonLoc.inFull i => { b with full := b.full.set i ch }
  | ColonLoc.inCwd i => { b with cwd := b.cwd.map (fun c => c.set i ch) }
  | ColonLoc.inDest i => { b with dest := b.dest.set i ch }

/-- The null character that terminates a C string. -/
def nullC : Char := Char.ofNat 0

/-- Reading a buffer as a C string: everything before the first null. -/
def cstr (s : Str) : Str := s.takeWhile (· != nullC)

/-- `IsBetweenFileSystem` (Mv.c:31-60), modelled with its in-place buffer
mutation made explicit: the colon delimiters are overwritten with null
(Mv.c:50-51), the volume prefixes compared case-insensitively (Mv.c:52),
and the colons restored (Mv.c:53-54).  Returns the boolean result together
with the final contents of the three buffers. -/
def isBetweenFileSystemImpl (b : Bufs) : Bool × Bufs :=
  match findColonFull b, findColonDest b with
  | some t, some t1 =>
    let b1 := writeAt (writeAt b t nullC) t1 nullC
    let r := !(strNoCaseEq (cstr b1.full) (cstr b1.dest))
    let b2 := writeAt (writeAt b1 t ':') t1 ':'
    (r, b2)
  | _, _ => (false, b)

/-- The observable input-output behaviour of `IsBetweenFileSystem` as a pure
function of the three input strings: compare the volume prefix of FullName
(the part before its first colon, the whole string when the located colon
lies in the Cwd fallback) against that of DestPath, case-insensitively;
without a colon on either side the move counts as within one file system. -/
def isBetweenFileSystem (full : Str) (cwd : Option Str) (dest : Str) : Bool :=
  match findColonFull ⟨full, cwd, dest⟩, findColonDest ⟨full, cwd, dest⟩ with
  | some t, some t1 =>
    let lhs := match t with | ColonLoc.inFull i => full.take i | _ => full
    let rhs := match t1 with | ColonLoc.inDest i => dest.take i | _ => dest
    !(strNoCaseEq lhs rhs)
  | _, _ => false

/-- One entry of the EFI_SHELL_FILE_INFO list returned by wildcard
expansion, restricted to the fields Mv.c reads. -/
structure FileMeta where
  fullName : Str
  attr : Nat
  isDir : Bool
deriving DecidableEq

/-- Modelled from the spec: the result of the `while (PathRemoveLastItem(DestPath))`
loop at Mv.c:199.  `PathRemoveLastItem` lives in MdePkg's BasePathLib, which is
not part of this repository; per spec section 4.1 the loop strips the trailing
component from the current directory repeatedly until only the volume root
(the prefix up to and including the first separator) remains. -/
def volumeRoot (c : Str) : Str :=
  match strStrIdx c ['\\'] with
  | some i => c.take (i + 1)
  | none => c

/-- `GetDestinationLocation` (Mv.c:168-283).  `destList` is the response of
the collaborator lookup `ShellOpenFileMetaArg(DestParameter, …)` (Mv.c:213);
the `none`/empty list stands for "no existing entry matches".  Returns the
SHELL_STATUS, the value stored through `DestPathPointer` (`none` when the
function returns without writing it), and the final value of `*DestAttr`. -/
def getDestinationLocation (destParameter : Str) (cwd : Option Str)
    (singleSource : Bool) (destList : List FileMeta) (destAttrIn : Nat) :
    ShellStatus × Option Str × Nat :=
  if strStrIdx destParameter ['\\'] == some 0 then
    match cwd with
    | none => (ShellStatus.invalidParameter, none, destAttrIn)
    | some c =>
      (ShellStatus.success, some (volumeRoot c ++ destParameter.drop 1), destAttrIn)
  else
    match destList with
    | [] =>
      if strStrIdx destParameter [':'] == none then
        match cwd with
        | none => (ShellStatus.invalidParameter, none, destAttrIn)
        | some c =>
          let d :=
            if (c.getLast? != some '\\') && (destParameter.head? != some '\\') then
              c ++ '\\' :: destParameter
            else if (c.getLast? == some '\\') && (destParameter.head? == some '\\') then
              c.dropLast ++ destParameter
            else c ++ destParameter
          (ShellStatus.success, some d, destAttrIn)
      else (ShellStatus.success, some destParameter, destAttrIn)
    | m :: rest =>
      let a := m.attr
      if rest.isEmpty = false then (ShellStatus.invalidParameter, none, a)
      else if m.isDir || singleSource then
        (ShellStatus.success, some (m.fullName ++ ['\\']), a)
      else (ShellStatus.invalidParameter, none, a)

/-- One source entry of the batch (`EFI_SHELL_FILE_INFO`), restricted to the
fields Mv.c reads; `handle = none` models `Node->Handle == NULL`. -/
structure FileNode where
  fileName : Str
  fullName : Str
  attr : Nat
  status : EfiStatus
  handle : Option Nat
deriving DecidableEq

/-- Calls made to the collaborator copy and delete primitives. -/
inductive PrimCall where
  | copyCall (src dst : Str)
  | deleteCall (path : Str)
deriving DecidableEq

/-- `MoveBetweenFileSystems` (Mv.c:287-312): copy the source to the target
(`CopySingleFile`, Mv.c:298, outcome supplied by the oracle `copyResult`);
only when the copy did not fail, recursively delete the source tree
(`CascadeDelete(Node, TRUE)`, Mv.c:307) and null the node's handle
(Mv.c:308).  Returns the copy's status, the updated node, and the ordered
trace of primitive calls. -/
def moveBetweenFileSystems (node : FileNode) (destPath : Str)
    (copyResult : EfiStatus) : EfiStatus × FileNode × List PrimCall :=
  if copyResult.isError then
    (copyResult, node, [PrimCall.copyCall node.fullName destPath])
  else
    (copyResult, { node with handle := none },
      [PrimCall.copyCall node.fullName destPath, PrimCall.deleteCall node.fullName])

/-- `CreateFullDestPath` (Mv.c:316-341): destination path plus the source
file name, inserting a separator unless one side already provides it. -/
def createFullDestPath (destPath fileName : Str) : Str :=
  if (destPath.getLast? != some '\\') && (fileName.head? != some '\\') then
    destPath ++ '\\' :: fileName
  else destPath ++ fileName

/-- The in-place `CopyMem(DestPath, TempLocation+1, …)` at Mv.c:360-362:
drop everything up to and including the first colon. -/
def chopMapInfo (d : Str) : Str :=
  match strStrIdx d [':'] with
  | some i => d.drop (i + 1)
  | none => d

/-- The FileName field of the new EFI_FILE_INFO block built at
Mv.c:375-393: root the (already map-stripped) destination with a backslash,
and when it ends in a separator append the node's file name, collapsing a
doubled separator. -/
def moveWithinNewName (destPath fileName : Str) : Str :=
  let n := if destPath.head? != some '\\' then '\\' :: destPath else destPath
  let len := if n.length > 0 then n.length - 1 else 0
  if n.get? len == some '\\' then
    (if fileName.head? == some '\\' then n.take len else n) ++ fileName
  else n

/-- `MoveWithinFileSystems` (Mv.c:345-408): chop the map information off
`DestPath` in place (Mv.c:360-362), build the new file-info record, and
apply it via the collaborator `ShellSetFileInfo` (outcome supplied by the
oracle `setInfoResult`).  Returns the status, the destination path's new
value, and the new file name that was applied. -/
def moveWithinFileSystems (node : FileNode) (destPath : Str)
    (setInfoResult : EfiStatus) : EfiStatus × Str × Str :=
  let d := chopMapInfo destPath
  (setInfoResult, d, moveWithinNewName d node.fileName)

/-- Observable events of one batch iteration. -/
inductive Event where
  | prompted (fileName : Str)
  | deletedTarget (path : Str)
  | crossMoved (fileName target : Str)
  | withinMoved (fileName newName : Str)
deriving DecidableEq

/-- Per-iteration responses of the external collaborators:
`ShellGetExecutionBreakFlag` (Mv.c:499), `ShellIsDirectory(DestPath)`
(Mv.c:522), `ShellFileExists` on the per-entry target (Mv.c:539), the
prompt's answer if it is invoked (Mv.c:541), and the status of the move
primitive (`CopySingleFile` or `ShellSetFileInfo`). -/
structure EntryEnv where
  breakFlag : Bool
  destIsDir : Bool
  targetExists : Bool
  promptResp : PromptResponse
  moveResult : EfiStatus
deriving DecidableEq

/-- Mutable state of `ValidateAndMoveFiles` across loop iterations:
the running SHELL_STATUS accumulator, the local sticky `Response`, the
value last written through the `Resp` out-parameter, and `DestPath`. -/
structure BatchState where
  shellStatus : ShellStatus
  response : Option PromptResponse
  respOut : Option PromptResponse
  destPath : Str
deriving DecidableEq

/-- `StrCmp(Node->FileName, L".") == 0 || StrCmp(Node->FileName, L"..") == 0`
(Mv.c:516). -/
def dotName (fn : Str) : Bool := fn == ['.'] || fn == ['.', '.']

/-- The mapping of EFI errors to the SHELL_STATUS accumulator at
Mv.c:580-593: the accumulator is first set to SHELL_INVALID_PARAMETER and
then refined for the specifically recognised errors. -/
def mapEfiToShell (s : EfiStatus) : ShellStatus :=
  match s with
  | EfiStatus.securityViolation => ShellStatus.securityViolation
  | EfiStatus.writeProtected => ShellStatus.writeProtected
  | EfiStatus.outOfResources => ShellStatus.outOfResources
  | EfiStatus.deviceError => ShellStatus.deviceError
  | EfiStatus.accessDenied => ShellStatus.accessDenied
  | _ => ShellStatus.invalidParameter

/-- The per-entry target `FullDestPath ? FullDestPath : DestPath`
(Mv.c:529, 534, 539, 565). -/
def targetOf (destPath : Str) (node : FileNode) (env : EntryEnv) : Str :=
  (if env.destIsDir then some (createFullDestPath destPath node.fileName) else none).getD
    destPath

/-- Result of one iteration of the main loop: continue with the next node,
break out of the loop (execution break flag), or return SHELL_ABORTED. -/
inductive StepOut where
  | next (st : BatchState) (evs : List Event)
  | stop (st : BatchState) (evs : List Event)
  | abortedE (st : BatchState) (evs : List Event)
deriving DecidableEq

/-- The final state carried by a `StepOut`. -/
def stepState : StepOut → BatchState
  | StepOut.next st _ => st
  | StepOut.stop st _ => st
  | StepOut.abortedE st _ => st

/-- The events emitted by a `StepOut`. -/
def stepEvents : StepOut → List Event
  | StepOut.next _ evs => evs
  | StepOut.stop _ evs => evs
  | StepOut.abortedE _ evs => evs

/-- The move half of one loop iteration (Mv.c:568-596): classify the
volumes with the current `DestPath` (Mv.c:568); in the cross-volume branch
trim trailing separators off `DestPath` when no per-entry FullDestPath was
built (Mv.c:569-571) and invoke `MoveBetweenFileSystems` (Mv.c:572); in
the same-volume branch invoke `MoveWithinFileSystems` on `DestPath`
(Mv.c:574), which chops its map information in place; finally fold an
error status into the accumulator (Mv.c:580-593).  `evs` carries the
events already emitted earlier in this iteration. -/
def moveStage (cwd : Option Str) (st1 : BatchState) (node : FileNode)
    (env : EntryEnv) (fullDestPath : Option Str) (evs : List Event) : StepOut :=
  if isBetweenFileSystem node.fullName cwd st1.destPath then
    let d2 := if fullDestPath.isNone then stripTrailingBs st1.destPath else st1.destPath
    let target2 := fullDestPath.getD d2
    let mv := moveBetweenFileSystems node target2 env.moveResult
    let st2 := { st1 with destPath := d2 }
    let st3 :=
      if mv.1.isError then { st2 with shellStatus := mapEfiToShell mv.1 } else st2
    StepOut.next st3 (evs ++ [Event.crossMoved node.fileName target2])
  else
    let mv := moveWithinFileSystems node st1.destPath env.moveResult
    let st2 := { st1 with destPath := mv.2.1 }
    let st3 :=
      if mv.1.isError then { st2 with shellStatus := mapEfiToShell mv.1 } else st2
    StepOut.next st3 (evs ++ [Event.withinMoved node.fileName mv.2.2])

/-- The conflict half of one loop iteration (Mv.c:539-566): when the
per-entry target exists, obtain a decision - prompting only when no sticky
`Response` is held (Mv.c:540-542) - then No skips the entry freeing the
response, Cancel returns SHELL_ABORTED propagating the decision through
the `Resp` out-parameter, All stores the sticky response, Yes frees it;
for Yes/All the existing target is deleted (Mv.c:565) and the move half
runs. -/
def conflictMoveStage (cwd : Option Str) (st : BatchState) (node : FileNode)
    (env : EntryEnv) (fullDestPath : Option Str) (target : Str) : StepOut :=
  let promptEvs : List Event :=
    if env.targetExists && st.response.isNone then [Event.prompted node.fileName] else []
  let resp : Option PromptResponse :=
    if env.targetExists then some (st.response.getD env.promptResp) else none
  match resp with
  | some PromptResponse.no => StepOut.next { st with response := none } promptEvs
  | some PromptResponse.cancel =>
    StepOut.abortedE
      { st with response := some PromptResponse.cancel,
                respOut := some PromptResponse.cancel } promptEvs
  | r =>
    let st1 : BatchState :=
      match r with
      | some PromptResponse.all =>
        { st with response := some PromptResponse.all,
                  respOut := some PromptResponse.all }
      | some PromptResponse.yes => { st with response := none }
      | _ => st
    let delEvs : List Event :=
      if env.targetExists then [Event.deletedTarget target] else []
    moveStage cwd st1 node env fullDestPath (promptEvs ++ delEvs)

/-- One iteration of the main loop of `ValidateAndMoveFiles`
(Mv.c:495-598): poll the break flag (Mv.c:499); skip "." and ".."
(Mv.c:516); build FullDestPath when the destination is a directory
(Mv.c:522-524); validate (Mv.c:529-532); then run the conflict and move
halves (Mv.c:539-596). -/
def validateAndMoveStep (cwd : Option Str) (destAttr : Nat)
    (st : BatchState) (node : FileNode) (env : EntryEnv) : StepOut :=
  if env.breakFlag then StepOut.stop st []
  else if dotName node.fileName then StepOut.next st []
  else
    let fullDestPath : Option Str :=
      if env.destIsDir then some (createFullDestPath st.destPath node.fileName) else none
    let target := fullDestPath.getD st.destPath
    if isValidMove node.fullName cwd target node.attr destAttr node.status = false then
      StepOut.next { st with shellStatus := ShellStatus.invalidParameter } []
    else
      conflictMoveStage cwd st node env fullDestPath target

/-- The whole main loop of `ValidateAndMoveFiles`, folding
`validateAndMoveStep` over the expanded source list.  Returns the final
state, the concatenated event trace, and whether the loop returned
SHELL_ABORTED (`true`) rather than running to completion or breaking. -/
def runValidateAndMove (cwd : Option Str) (destAttr : Nat) :
    BatchState → List (FileNode × EntryEnv) → BatchState × List Event × Bool
  | st, [] => (st, [], false)
  | st, e :: rest =>
    match validateAndMoveStep cwd destAttr st e.1 e.2 with
    | StepOut.next st2 evs =>
      let r := runValidateAndMove cwd destAttr st2 rest
      (r.1, evs ++ r.2.1, r.2.2)
    | StepOut.stop st2 evs => (st2, evs, false)
    | StepOut.abortedE st2 evs => (st2, evs, true)

/-- The SHELL_STATUS `ValidateAndMoveFiles` returns: SHELL_ABORTED on a
cancel, otherwise the accumulator (Mv.c:553, 604). -/
def batchFinalStatus (out : BatchState × List Event × Bool) : ShellStatus :=
  if out.2.2 then ShellStatus.aborted else out.1.shellStatus

/-! ### String lemmas -/

theorem strStrIdx_zero_iff (h n : Str) : strStrIdx h n = some 0 ↔ n.isPrefixOf h = true := by
  cases h with
  | nil =>
    simp only [strStrIdx]
    split <;> simp_all
  | cons c t =>
    simp only [strStrIdx]
    split
    · simp_all
    · simp only [Option.map_eq_some']
      constructor
      · rintro ⟨a, -, hconds⟩
        omega
      · intro hh
        simp_all

theorem singleton_isPrefixOf_iff (a : Char) (s : Str) :
    ([a].isPrefixOf s = true) ↔ s.head? = some a := by
  cases s with
  | nil => simp [List.isPrefixOf]
  | cons c t =>
    simp [List.isPrefixOf]
    exact eq_comm

theorem strStrIdx_single_get (a : Char) (s : Str) (i : Nat)
    (h : strStrIdx s [a] = some i) : s.get? i = some a := by
  induction s generalizing i with
  | nil => simp [strStrIdx, List.isPrefixOf] at h
  | cons c t ih =>
    simp only [strStrIdx] at h
    split at h
    · rename_i hp
      rw [singleton_isPrefixOf_iff] at hp
      simp only [List.head?] at hp
      cases h
      simpa using hp
    · simp only [Option.map_eq_some'] at h
      obtain ⟨j, hj, hji⟩ := h
      subst hji
      simpa using ih j hj

theorem set_set_same (l : Str) (i : Nat) (a b : Char) :
    (l.set i a).set i b = l.set i b := by
  induction l generalizing i with
  | nil => simp
  | cons c t ih => cases i <;> simp [List.set, ih]

theorem set_of_get (l : Str) (i : Nat) (a : Char) (h : l.get? i = some a) :
    l.set i a = l := by
  induction l generalizing i with
  | nil => simp at h
  | cons c t ih =>
    cases i with
    | zero => simp_all
    | succ n =>
      simp only [List.get?_cons_succ] at h
      simp [ih n h]

theorem cstr_of_not_mem (l : Str) (h : nullC ∉ l) : cstr l = l := by
  induction l with
  | nil => rfl
  | cons c t ih =>
    simp only [List.mem_cons, not_or] at h
    simp only [cstr, List.takeWhile]
    have : (c != nullC) = true := by simpa [bne_iff_ne] using fun hc => h.1 hc.symm
    simp only [this]
    simpa [cstr] using ih h.2

theorem cstr_set_null (l : Str) (i : Nat) (h : nullC ∉ l) (hi : i < l.length) :
    cstr (l.set i nullC) = l.take i := by
  induction l generalizing i with
  | nil => simp at hi
  | cons c t ih =>
    simp only [List.mem_cons, not_or] at h
    cases i with
    | zero =>
      simp [cstr, List.takeWhile, List.set]
    | succ n =>
      simp only [List.set]
      have hc : (c != nullC) = true := by simpa [bne_iff_ne] using fun hc => h.1 hc.symm
      simp only [cstr, List.takeWhile, hc, List.take]
      have := ih n h.2 (by simpa using hi)
      simpa [cstr] using this

theorem get_mem_of_get? (l : Str) (i : Nat) (a : Char) (h : l.get? i = some a) : i < l.length := by
  by_contra hlt
  rw [List.get?_eq_none.mpr (by omega)] at h
  exact Option.noConfusion h

theorem dropLeadingBs_eq_self (s : Str) (h : s.head? ≠ some '\\') : dropLeadingBs s = s := by
  cases s with
  | nil => rfl
  | cons c t =>
    simp only [List.head?] at h
    have : (c == '\\') = false := by
      simp only [beq_eq_false_iff_ne, ne_eq]
      intro hc
      exact h (by rw [hc])
    simp [dropLeadingBs, List.dropWhile, this]

theorem stripTrailingBs_eq_self (s : Str) (h : s.getLast? ≠ some '\\') :
    stripTrailingBs s = s := by
  unfold stripTrailingBs
  cases hs : s.reverse with
  | nil =>
    simp_all [List.reverse_eq_nil_iff]
  | cons c t =>
    have hc : s.getLast? = some c := by
      rw [← List.head?_reverse, hs]
      rfl
    have hcf : (c == '\\') = false := by
      simp only [beq_eq_false_iff_ne, ne_eq]
      intro hcc
      exact h (hc.trans (by rw [hcc]))
    rw [List.dropWhile_cons, hcf]
    simp only [Bool.false_eq_true, if_false]
    rw [← hs, List.reverse_reverse]

theorem strStrIdx_nil_needle (w : Str) : strStrIdx w [] = some 0 := by
  cases w <;> simp [strStrIdx, List.isPrefixOf]

theorem isPrefixOf_append_self (l t : Str) : l.isPrefixOf (l ++ t) = true := by
  rw [List.isPrefixOf_iff_prefix]
  exact List.prefix_append l t

theorem stripTrailingBs_append (p q : Str) :
    stripTrailingBs (p ++ q) =
      if (stripTrailingBs q).isEmpty then stripTrailingBs p
      else p ++ stripTrailingBs q := by
  unfold stripTrailingBs
  rw [List.reverse_append, List.dropWhile_append]
  by_cases hq : (List.dropWhile (fun x => x == '\\') q.reverse).isEmpty
  · have hq0 : List.dropWhile (fun x => x == '\\') q.reverse = [] := by
      simpa [List.isEmpty_iff] using hq
    rw [if_pos hq, hq0]
    simp
  · have hq2 : ((List.dropWhile (fun x => x == '\\') q.reverse).reverse).isEmpty = false := by
      simp_all [List.isEmpty_iff]
    rw [if_neg hq, if_neg (by simp_all), List.reverse_append, List.reverse_reverse]

/-! ### IsValidMove: rule normal form -/

theorem ruleThreeBool (src w : Str) :
    ((w == src) || (strStrIdx w src == some 0)) = src.isPrefixOf w := by
  cases hpb : src.isPrefixOf w with
  | true =>
    have h0 : strStrIdx w src = some 0 := (strStrIdx_zero_iff w src).mpr hpb
    simp [h0]
  | false =>
    have h0 : strStrIdx w src ≠ some 0 := fun hc => by
      rw [(strStrIdx_zero_iff w src).mp hc] at hpb
      exact Bool.noConfusion hpb
    have h1 : w ≠ src := fun hc => by
      subst hc
      rw [show w.isPrefixOf w = true by rw [List.isPrefixOf_iff_prefix]] at hpb
      exact Bool.noConfusion hpb
    simp [h0, h1]

theorem beqSymmStr (x y : Str) : (x == y) = (y == x) := by
  cases h : (x == y) with
  | true =>
    have hxy := eq_of_beq h
    subst hxy
    simp
  | false =>
    cases h2 : (y == x) with
    | false => rfl
    | true =>
      have hxy := eq_of_beq h2
      subst hxy
      simp at h

theorem isValidMove_eq (src : Str) (cwd : Option Str) (dest : Str) (a da : Nat)
    (fs : EfiStatus) :
    isValidMove src cwd dest a da fs =
      (!(cwd == some src) &&
        !((a &&& EFI_FILE_READ_ONLY != 0) || (fs == EfiStatus.writeProtected) ||
          (da &&& EFI_FILE_READ_ONLY != 0)) &&
        !(src.isPrefixOf (stripTrailingBs (dropLeadingBs dest)))) := by
  cases cwd with
  | none =>
    cases h2 : ((a &&& EFI_FILE_READ_ONLY != 0) || (fs == EfiStatus.writeProtected) ||
        (da &&& EFI_FILE_READ_ONLY != 0)) with
    | true => simp [isValidMove, ruleThreeBool, h2]
    | false =>
      cases hp : src.isPrefixOf (stripTrailingBs (dropLeadingBs dest)) with
      | true => simp [isValidMove, ruleThreeBool, h2, hp]
      | false => simp [isValidMove, ruleThreeBool, h2, hp]
  | some c =>
    cases h1 : (src == c) with
    | true =>
      have hcw : ((some c : Option Str) == some src) = true := by
        show (c == src) = true
        rw [beqSymmStr]
        exact h1
      simp [isValidMove, ruleThreeBool, h1, hcw]
    | false =>
      have hcw : ((some c : Option Str) == some src) = false := by
        show (c == src) = false
        rw [beqSymmStr]
        exact h1
      cases h2 : ((a &&& EFI_FILE_READ_ONLY != 0) || (fs == EfiStatus.writeProtected) ||
          (da &&& EFI_FILE_READ_ONLY != 0)) with
      | true => simp [isValidMove, ruleThreeBool, h1, hcw, h2]
      | false =>
        cases hp : src.isPrefixOf (stripTrailingBs (dropLeadingBs dest)) with
        | true => simp [isValidMove, ruleThreeBool, h1, hcw, h2, hp]
        | false => simp [isValidMove, ruleThreeBool, h1, hcw, h2, hp]

/-- Claim C2 counterexample: the validator's path comparisons are
case-sensitive, so the identity move `a -> a` is rejected while the same
move with the target's letter case flipped (`a -> A`) is accepted: the
result is not invariant under letter-case changes of the target. -/
theorem c2_counterexample :
    isValidMove ['a'] none ['a'] 0 0 EfiStatus.success = false ∧
    isValidMove ['a'] none ['A'] 0 0 EfiStatus.success = true := by
  constructor <;> decide

/-- Claim C2 (amended): every path comparison performed by `IsValidMove` is
case-SENSITIVE (literal string equality), not case-insensitive, and the
validator returns true exactly when none of its three rules fires: the
source equals the current directory; a read-only source or destination
attribute or a write-protected open status; or the source being a literal
leading substring of the destination after leading separators are skipped
and trailing separators stripped. -/
theorem c2_case_sensitive_rules (src : Str) (cwd : Option Str) (dest : Str)
    (a da : Nat) (fs : EfiStatus) :
    isValidMove src cwd dest a da fs = true ↔
      cwd ≠ some src ∧
      a &&& EFI_FILE_READ_ONLY = 0 ∧
      fs ≠ EfiStatus.writeProtected ∧
      da &&& EFI_FILE_READ_ONLY = 0 ∧
      src.isPrefixOf (stripTrailingBs (dropLeadingBs dest)) = false := by
  rw [isValidMove_eq]
  simp only [Bool.and_eq_true, Bool.not_eq_true', beq_eq_false_iff_ne, ne_eq,
    Bool.or_eq_false_iff, bne_eq_false_iff_eq, Bool.not_eq_true]
  tauto

/-- Claim C3 counterexample: for a path beginning with a separator the
walker at Mv.c:125 skips the leading backslash of the destination copy, so
the identity move of `\a` onto `\a` is ACCEPTED by the validator, refuting
the claim that a move of P onto P is rejected for every P. -/
theorem c3_counterexample :
    isValidMove ['\\', 'a'] none ['\\', 'a'] 0 0 EfiStatus.success = true := by
  decide

/-- Claim C3 (amended): for every path P that neither begins nor ends with
a separator, the validator rejects a move of P onto P itself and a move of
P onto P followed by a separator and any suffix S, for any attributes,
current directory and open status. -/
theorem c3_self_and_descendant_rejected (p : Str) (cwd : Option Str) (s : Str)
    (a da : Nat) (fs : EfiStatus)
    (hh : p.head? ≠ some '\\') (hl : p.getLast? ≠ some '\\') :
    isValidMove p cwd p a da fs = false ∧
    isValidMove p cwd (p ++ '\\' :: s) a da fs = false := by
  have hids : dropLeadingBs p = p := dropLeadingBs_eq_self p hh
  have hits : stripTrailingBs p = p := stripTrailingBs_eq_self p hl
  have hself : p.isPrefixOf p = true := by
    rw [List.isPrefixOf_iff_prefix]
  constructor
  · rw [isValidMove_eq, hids, hits]
    simp [hself]
  · rw [isValidMove_eq]
    cases hp : p with
    | nil =>
      simp [List.isPrefixOf]
    | cons c t =>
      rw [hp] at hh hits
      have hid2 : dropLeadingBs ((c :: t) ++ '\\' :: s) = (c :: t) ++ '\\' :: s := by
        apply dropLeadingBs_eq_self
        rw [List.cons_append]
        simpa using hh
      rw [hid2, stripTrailingBs_append (c :: t) ('\\' :: s)]
      by_cases he : (stripTrailingBs ('\\' :: s)).isEmpty
      · rw [if_pos he, hits]
        rw [hp] at hself
        simp [hself]
      · rw [if_neg he]
        simp [isPrefixOf_append_self]

/-- Claim C3 amended witness: concrete instance `p = "a"`, `s = "b"`. -/
theorem c3_self_and_descendant_rejected_witness :
    isValidMove ['a'] (some ['c']) ['a'] 7 0 EfiStatus.success = false ∧
    isValidMove ['a'] (some ['c']) (['a'] ++ '\\' :: ['b']) 7 0 EfiStatus.success = false :=
  c3_self_and_descendant_rejected ['a'] (some ['c']) ['b'] 7 0 EfiStatus.success
    (by decide) (by decide)

/-- Claim C4: a cross-volume move copies before it deletes: the first
primitive call is always the copy; when the copy fails no delete is ever
invoked, the node (including its store handle) is returned unchanged and
the copy's error code is returned; when the copy succeeds the call trace
is exactly copy-then-delete of the source tree and the node's handle is
nulled. -/
theorem c4_cross_volume_copy_then_delete (node : FileNode) (dp : Str) (r : EfiStatus) :
    (moveBetweenFileSystems node dp r).2.2.head? = some (PrimCall.copyCall node.fullName dp) ∧
    (r.isError = true →
      moveBetweenFileSystems node dp r = (r, node, [PrimCall.copyCall node.fullName dp])) ∧
    (r.isError = false →
      (moveBetweenFileSystems node dp r).1 = r ∧
      (moveBetweenFileSystems node dp r).2.1 = { node with handle := none } ∧
      (moveBetweenFileSystems node dp r).2.2 =
        [PrimCall.copyCall node.fullName dp, PrimCall.deleteCall node.fullName]) := by
  unfold moveBetweenFileSystems
  cases hr : r.isError with
  | true => simp [hr]
  | false => simp [hr]

/-- Claim C4 witness: evaluation at a concrete node for both a failing and
a successful copy. -/
theorem c4_cross_volume_copy_then_delete_witness :
    (moveBetweenFileSystems ⟨['a'], ['f',':','a'], 0, EfiStatus.success, some 3⟩ ['d']
        EfiStatus.accessDenied =
      (EfiStatus.accessDenied, ⟨['a'], ['f',':','a'], 0, EfiStatus.success, some 3⟩,
        [PrimCall.copyCall ['f',':','a'] ['d']])) ∧
    (moveBetweenFileSystems ⟨['a'], ['f',':','a'], 0, EfiStatus.success, some 3⟩ ['d']
        EfiStatus.success).2.1.handle = none :=
  ⟨((c4_cross_volume_copy_then_delete ⟨['a'], ['f',':','a'], 0, EfiStatus.success, some 3⟩
      ['d'] EfiStatus.accessDenied).2.1 (by decide)),
   by
    have h := (c4_cross_volume_copy_then_delete ⟨['a'], ['f',':','a'], 0, EfiStatus.success,
      some 3⟩ ['d'] EfiStatus.success).2.2 (by decide)
    rw [h.2.1]⟩

/-- Claim C8 counterexample: a destination argument that begins with a
separator is resolved against the current directory's volume root WITHOUT
consulting the store (Mv.c:190-209), so a separator-rooted wildcard such
as `\*` that matches two existing entries still resolves successfully with
a destination path, instead of failing with the ambiguous-target error. -/
theorem c8_counterexample :
    getDestinationLocation ['\\', '*'] (some ['f', ':', '\\']) false
      [⟨['x'], 0, false⟩, ⟨['y'], 0, false⟩] 0 =
      (ShellStatus.success, some ['f', ':', '\\', '*'], 0) := by
  decide

/-- Claim C8 (amended): when the destination argument does not begin with a
path separator (so the store lookup is actually consulted), destination
resolution fails with the ambiguous-target error (SHELL_INVALID_PARAMETER)
whenever the lookup matches two or more existing entries, and whenever it
matches exactly one existing entry that is a file while more than one
source entry is being moved; in both failure cases no destination path is
written through the out-parameter. -/
theorem c8_ambiguous_target (dp : Str) (cwd : Option Str) (single : Bool)
    (destList : List FileMeta) (attrIn : Nat)
    (hnb : dp.head? ≠ some '\\') :
    (2 ≤ destList.length →
      (getDestinationLocation dp cwd single destList attrIn).1 = ShellStatus.invalidParameter ∧
      (getDestinationLocation dp cwd single destList attrIn).2.1 = none) ∧
    (∀ m, destList = [m] → m.isDir = false → single = false →
      (getDestinationLocation dp cwd single destList attrIn).1 = ShellStatus.invalidParameter ∧
      (getDestinationLocation dp cwd single destList attrIn).2.1 = none) := by
  have hb : (strStrIdx dp ['\\'] == some 0) = false := by
    have : strStrIdx dp ['\\'] ≠ some 0 := by
      intro hc
      exact hnb ((singleton_isPrefixOf_iff '\\' dp).mp ((strStrIdx_zero_iff dp ['\\']).mp hc))
    simpa using this
  constructor
  · intro hlen
    match destList, hlen with
    | m :: m2 :: rest, _ =>
      simp [getDestinationLocation, hb]
  · rintro m rfl hdir hsingle
    subst hsingle
    simp [getDestinationLocation, hb, hdir]

/-- Claim C8 amended witness: two matches, and a single file match with
multiple sources, both at concrete inputs. -/
theorem c8_ambiguous_target_witness :
    ((getDestinationLocation ['d'] none false [⟨['x'], 0, false⟩, ⟨['y'], 0, false⟩] 0).1 =
        ShellStatus.invalidParameter ∧
      (getDestinationLocation ['d'] none false [⟨['x'], 0, false⟩, ⟨['y'], 0, false⟩] 0).2.1 =
        none) ∧
    ((getDestinationLocation ['d'] none false [⟨['x'], 0, false⟩] 0).1 =
        ShellStatus.invalidParameter ∧
      (getDestinationLocation ['d'] none false [⟨['x'], 0, false⟩] 0).2.1 = none) :=
  ⟨(c8_ambiguous_target ['d'] none false [⟨['x'], 0, false⟩, ⟨['y'], 0, false⟩] 0
      (by decide)).1 (by decide),
   (c8_ambiguous_target ['d'] none false [⟨['x'], 0, false⟩] 0 (by decide)).2
      ⟨['x'], 0, false⟩ rfl rfl rfl⟩

/-- Claim C9: with a null current directory, destination resolution fails
with SHELL_INVALID_PARAMETER (the missing-context error), writing no
destination path: both for every destination argument that begins with a
path separator (Mv.c:190-193), and for every non-existing destination
argument (empty lookup result) carrying no volume qualifier
(Mv.c:218-223). -/
theorem c9_missing_context (dp : Str) (single : Bool) (destList : List FileMeta)
    (attrIn : Nat) :
    (dp.head? = some '\\' →
      getDestinationLocation dp none single destList attrIn =
        (ShellStatus.invalidParameter, none, attrIn)) ∧
    (destList = [] → strStrIdx dp [':'] = none →
      getDestinationLocation dp none single destList attrIn =
        (ShellStatus.invalidParameter, none, attrIn)) := by
  constructor
  · intro hh
    have hb : (strStrIdx dp ['\\'] == some 0) = true := by
      have : strStrIdx dp ['\\'] = some 0 :=
        (strStrIdx_zero_iff dp ['\\']).mpr ((singleton_isPrefixOf_iff '\\' dp).mpr hh)
      simp [this]
    simp [getDestinationLocation, hb]
  · rintro rfl hcolon
    by_cases hb : (strStrIdx dp ['\\'] == some 0) = true
    · simp [getDestinationLocation, hb]
    · simp only [Bool.not_eq_true] at hb
      simp [getDestinationLocation, hb, hcolon]

/-- Claim C9 witness: `\foo` with a null current directory, and the
non-existing unqualified destination `foo` with a null current directory. -/
theorem c9_missing_context_witness :
    (getDestinationLocation ['\\', 'f'] none true [] 0 =
      (ShellStatus.invalidParameter, none, 0)) ∧
    (getDestinationLocation ['f'] none true [] 0 =
      (ShellStatus.invalidParameter, none, 0)) :=
  ⟨(c9_missing_context ['\\', 'f'] true [] 0).1 rfl,
   (c9_missing_context ['f'] true [] 0).2 rfl (by decide)⟩

/-! ### IsBetweenFileSystem: inversion of the colon finders -/

theorem findColonFull_cases (b : Bufs) (t : ColonLoc) (h : findColonFull b = some t) :
    (∃ i, strStrIdx b.full [':'] = some i ∧ t = ColonLoc.inFull i) ∨
    (strStrIdx b.full [':'] = none ∧
      ∃ c i, b.cwd = some c ∧ strStrIdx c [':'] = some i ∧ t = ColonLoc.inCwd i) := by
  unfold findColonFull at h
  cases hfi : strStrIdx b.full [':'] with
  | some i =>
    simp only [hfi, Option.some.injEq] at h
    exact Or.inl ⟨i, rfl, h.symm⟩
  | none =>
    simp only [hfi] at h
    cases hcw : b.cwd with
    | none =>
      simp only [hcw] at h
      exact Option.noConfusion h
    | some c =>
      simp only [hcw] at h
      cases hci : strStrIdx c [':'] with
      | none =>
        rw [hci] at h
        exact Option.noConfusion h
      | some i =>
        rw [hci] at h
        simp only [Option.map_some', Option.some.injEq] at h
        exact Or.inr ⟨rfl, c, i, rfl, hci, h.symm⟩

theorem findColonDest_cases (b : Bufs) (t : ColonLoc) (h : findColonDest b = some t) :
    (∃ i, strStrIdx b.dest [':'] = some i ∧ t = ColonLoc.inDest i) ∨
    (strStrIdx b.dest [':'] = none ∧
      ∃ c i, b.cwd = some c ∧ strStrIdx c [':'] = some i ∧ t = ColonLoc.inCwd i) := by
  unfold findColonDest at h
  cases hfi : strStrIdx b.dest [':'] with
  | some i =>
    simp only [hfi, Option.some.injEq] at h
    exact Or.inl ⟨i, rfl, h.symm⟩
  | none =>
    simp only [hfi] at h
    cases hcw : b.cwd with
    | none =>
      simp only [hcw] at h
      exact Option.noConfusion h
    | some c =>
      simp only [hcw] at h
      cases hci : strStrIdx c [':'] with
      | none =>
        rw [hci] at h
        exact Option.noConfusion h
      | some i =>
        rw [hci] at h
        simp only [Option.map_some', Option.some.injEq] at h
        exact Or.inr ⟨rfl, c, i, rfl, hci, h.symm⟩

theorem restore_colon (s : Str) (i : Nat) (h : s.get? i = some ':') :
    (s.set i nullC).set i ':' = s :=
  (set_set_same s i nullC ':').trans (set_of_get s i ':' h)

/-- Claim C10: the volume classifier leaves all three of its string buffers
observationally unchanged - after the call every buffer is
character-for-character equal to its input, even though the implementation
temporarily overwrites the colon delimiters in place - and its boolean
result is the pure function `isBetweenFileSystem` of the three input
strings.  The hypotheses say only that the inputs are genuine C strings
(no interior null character). -/
theorem c10_classifier_restores_buffers (f d : Str) (cw : Option Str)
    (hf : nullC ∉ f) (hd : nullC ∉ d) (hcwd : ∀ c, cw = some c → nullC ∉ c) :
    isBetweenFileSystemImpl ⟨f, cw, d⟩ = (isBetweenFileSystem f cw d, ⟨f, cw, d⟩) := by
  unfold isBetweenFileSystemImpl isBetweenFileSystem
  cases hTf : findColonFull ⟨f, cw, d⟩ with
  | none => cases hTd : findColonDest ⟨f, cw, d⟩ <;> simp
  | some t =>
    cases hTd : findColonDest ⟨f, cw, d⟩ with
    | none => simp
    | some t1 =>
      simp only []
      rcases findColonFull_cases _ t hTf with ⟨i, hfi, rfl⟩ | ⟨hfn, c, i, hcw, hci, rfl⟩
      · rcases findColonDest_cases _ t1 hTd with ⟨j, hdj, rfl⟩ | ⟨hdn, c2, j, hcw2, hcj, rfl⟩
        · -- colon found in FullName and in DestPath
          have hfi2 := strStrIdx_single_get ':' f i hfi
          have hdj2 := strStrIdx_single_get ':' d j hdj
          have hfl : i < f.length := get_mem_of_get? f i ':' hfi2
          have hdl : j < d.length := get_mem_of_get? d j ':' hdj2
          simp only [writeAt]
          rw [cstr_set_null f i hf hfl, cstr_set_null d j hd hdl,
            restore_colon f i hfi2, restore_colon d j hdj2]
        · -- colon found in FullName; DestPath falls back to Cwd
          have hcw2x : cw = some c2 := hcw2
          subst hcw2x
          have hfi2 := strStrIdx_single_get ':' f i hfi
          have hcj2 := strStrIdx_single_get ':' c2 j hcj
          have hfl : i < f.length := get_mem_of_get? f i ':' hfi2
          simp only [writeAt, Option.map_some']
          rw [cstr_set_null f i hf hfl, cstr_of_not_mem d hd,
            restore_colon f i hfi2, restore_colon c2 j hcj2]
      · rcases findColonDest_cases _ t1 hTd with ⟨j, hdj, rfl⟩ | ⟨hdn, c2, j, hcw2, hcj, rfl⟩
        · -- FullName falls back to Cwd; colon found in DestPath
          have hcwx : cw = some c := hcw
          subst hcwx
          have hci2 := strStrIdx_single_get ':' c i hci
          have hdj2 := strStrIdx_single_get ':' d j hdj
          have hdl : j < d.length := get_mem_of_get? d j ':' hdj2
          simp only [writeAt, Option.map_some']
          rw [cstr_of_not_mem f hf, cstr_set_null d j hd hdl,
            restore_colon d j hdj2, restore_colon c i hci2]
        · -- both sides fall back to the same colon inside Cwd
          have hcwx : cw = some c := hcw
          subst hcwx
          have hcc : c = c2 := by simpa using hcw2
          subst hcc
          have hji : j = i := by
            rw [hcj] at hci
            simpa using hci
          subst hji
          have hcj2 := strStrIdx_single_get ':' c j hcj
          simp only [writeAt, Option.map_some', set_set_same]
          rw [cstr_of_not_mem f hf, cstr_of_not_mem d hd, set_of_get c j ':' hcj2]

/-- Claim C10 witness: concrete buffers with the colon of the source found
in the Cwd fallback. -/
theorem c10_classifier_restores_buffers_witness :
    isBetweenFileSystemImpl ⟨['a'], some ['f', ':'], ['g', ':', 'b']⟩ =
      (isBetweenFileSystem ['a'] (some ['f', ':']) ['g', ':', 'b'],
        ⟨['a'], some ['f', ':'], ['g', ':', 'b']⟩) :=
  c10_classifier_restores_buffers ['a'] ['g', ':', 'b'] (some ['f', ':'])
    (by decide) (by decide) (by intro c hc; cases hc; decide)

/-! ### Batch loop lemmas -/

theorem mapEfiToShell_ne_success (s : EfiStatus) :
    mapEfiToShell s ≠ ShellStatus.success := by
  cases s <;> simp [mapEfiToShell]

theorem moveStage_next (cwd : Option Str) (st1 : BatchState) (node : FileNode)
    (env : EntryEnv) (fdp : Option Str) (evs : List Event) :
    ∃ st2 ev1, moveStage cwd st1 node env fdp evs = StepOut.next st2 (evs ++ [ev1]) ∧
      (∀ fn, ev1 ≠ Event.prompted fn) ∧ st2.response = st1.response := by
  unfold moveStage
  repeat' split
  all_goals exact ⟨_, _, rfl, by simp, by split <;> rfl⟩

theorem moveStage_frame (cwd : Option Str) (st1 : BatchState) (node : FileNode)
    (env : EntryEnv) (fdp : Option Str) (evs : List Event) :
    ((stepState (moveStage cwd st1 node env fdp evs)).shellStatus = st1.shellStatus ∨
      (stepState (moveStage cwd st1 node env fdp evs)).shellStatus ≠
        ShellStatus.success) ∧
    ((stepState (moveStage cwd st1 node env fdp evs)).destPath = st1.destPath ∨
      (stepState (moveStage cwd st1 node env fdp evs)).destPath =
        stripTrailingBs st1.destPath ∨
      (stepState (moveStage cwd st1 node env fdp evs)).destPath =
        chopMapInfo st1.destPath) := by
  unfold moveStage
  repeat' split
  all_goals simp only [stepState]
  all_goals split <;> simp_all [stepState, moveWithinFileSystems, mapEfiToShell_ne_success]

theorem conflictMoveStage_frame (cwd : Option Str) (st : BatchState) (node : FileNode)
    (env : EntryEnv) (fdp : Option Str) (target : Str) :
    ((stepState (conflictMoveStage cwd st node env fdp target)).shellStatus =
        st.shellStatus ∨
      (stepState (conflictMoveStage cwd st node env fdp target)).shellStatus ≠
        ShellStatus.success) ∧
    ((stepState (conflictMoveStage cwd st node env fdp target)).destPath = st.destPath ∨
      (stepState (conflictMoveStage cwd st node env fdp target)).destPath =
        stripTrailingBs st.destPath ∨
      (stepState (conflictMoveStage cwd st node env fdp target)).destPath =
        chopMapInfo st.destPath) := by
  unfold conflictMoveStage
  cases hte : env.targetExists with
  | false =>
    simp only [hte, Bool.false_and, Bool.false_eq_true, if_false]
    exact moveStage_frame cwd st node env fdp ([] ++ [])
  | true =>
    cases hresp : st.response with
    | some r0 =>
      cases r0 with
      | yes =>
        simp only [hte, hresp, Option.isNone_some, Bool.and_false, Bool.false_eq_true,
          if_false, Option.getD_some, Bool.true_and, if_true]
        exact moveStage_frame cwd { st with response := none } node env fdp
          ([] ++ [Event.deletedTarget target])
      | no =>
        simp [hte, hresp, stepState]
      | all =>
        simp only [hte, hresp, Option.isNone_some, Bool.and_false, Bool.false_eq_true,
          if_false, Option.getD_some, Bool.true_and, if_true]
        exact moveStage_frame cwd
          { st with response := some PromptResponse.all,
                    respOut := some PromptResponse.all } node env fdp
          ([] ++ [Event.deletedTarget target])
      | cancel =>
        simp [hte, hresp, stepState]
    | none =>
      cases hpr : env.promptResp with
      | yes =>
        simp only [hte, hresp, hpr, Option.isNone_none, Bool.and_true, Option.getD_none,
          if_true]
        exact moveStage_frame cwd { st with response := none } node env fdp
          ([Event.prompted node.fileName] ++ [Event.deletedTarget target])
      | no =>
        simp [hte, hresp, hpr, stepState]
      | all =>
        simp only [hte, hresp, hpr, Option.isNone_none, Bool.and_true, Option.getD_none,
          if_true]
        exact moveStage_frame cwd
          { st with response := some PromptResponse.all,
                    respOut := some PromptResponse.all } node env fdp
          ([Event.prompted node.fileName] ++ [Event.deletedTarget target])
      | cancel =>
        simp [hte, hresp, hpr, stepState]

theorem step_frame (cwd : Option Str) (da : Nat) (st : BatchState) (node : FileNode)
    (env : EntryEnv) :
    ((stepState (validateAndMoveStep cwd da st node env)).shellStatus = st.shellStatus ∨
      (stepState (validateAndMoveStep cwd da st node env)).shellStatus ≠
        ShellStatus.success) ∧
    ((stepState (validateAndMoveStep cwd da st node env)).destPath = st.destPath ∨
      (stepState (validateAndMoveStep cwd da st node env)).destPath =
        stripTrailingBs st.destPath ∨
      (stepState (validateAndMoveStep cwd da st node env)).destPath =
        chopMapInfo st.destPath) := by
  unfold validateAndMoveStep
  cases hb : env.breakFlag with
  | true => simp [hb, stepState]
  | false =>
    simp only [hb, Bool.false_eq_true, if_false]
    cases hdn : dotName node.fileName with
    | true => simp [hdn, stepState]
    | false =>
      simp only [hdn, Bool.false_eq_true, if_false]
      cases hv : isValidMove node.fullName cwd
          ((if env.destIsDir then some (createFullDestPath st.destPath node.fileName)
            else none).getD st.destPath) node.attr da node.status with
      | false => simp [hv, stepState]
      | true =>
        rw [if_neg (by simp : ¬(true = false))]
        exact conflictMoveStage_frame cwd st node env _ _

/-- Claim C1 counterexample: the accumulator holds the LAST failure code,
not the first: after a first entry failing with EFI_SECURITY_VIOLATION the
accumulator reads SHELL_SECURITY_VIOLATION, but a second entry failing
with EFI_ACCESS_DENIED overwrites it to SHELL_ACCESS_DENIED, so an
earlier failure code does not survive a later, different failure. -/
theorem c1_counterexample :
    (runValidateAndMove none 0 ⟨ShellStatus.success, none, none, ['d']⟩
        [(⟨['a'], ['s', 'a'], 0, EfiStatus.success, some 0⟩,
          ⟨false, false, false, PromptResponse.yes, EfiStatus.securityViolation⟩)]).1.shellStatus =
      ShellStatus.securityViolation ∧
    (runValidateAndMove none 0 ⟨ShellStatus.success, none, none, ['d']⟩
        [(⟨['a'], ['s', 'a'], 0, EfiStatus.success, some 0⟩,
          ⟨false, false, false, PromptResponse.yes, EfiStatus.securityViolation⟩),
         (⟨['b'], ['s', 'b'], 0, EfiStatus.success, some 0⟩,
          ⟨false, false, false, PromptResponse.yes, EfiStatus.accessDenied⟩)]).1.shellStatus =
      ShellStatus.accessDenied := by
  constructor <;> decide

/-- Claim C1 (amended): the batch accumulator records the most recent
failure code - a later entry failing with a different code overwrites an
earlier failure code - but once it holds any non-success code no later
successful entry ever resets it to Success, and processing continues with
subsequent entries. -/
theorem c1_accumulator_never_resets (cwd : Option Str) (da : Nat) (st : BatchState)
    (entries : List (FileNode × EntryEnv))
    (h : st.shellStatus ≠ ShellStatus.success) :
    (runValidateAndMove cwd da st entries).1.shellStatus ≠ ShellStatus.success := by
  induction entries generalizing st with
  | nil => simpa [runValidateAndMove] using h
  | cons e rest ih =>
    have hstep := (step_frame cwd da st e.1 e.2).1
    rw [runValidateAndMove]
    cases hs : validateAndMoveStep cwd da st e.1 e.2 with
    | next st2 evs =>
      simp only []
      apply ih st2
      rw [hs] at hstep
      simp only [stepState] at hstep
      rcases hstep with heq | hne
      · rw [heq]
        exact h
      · exact hne
    | stop st2 evs =>
      simp only []
      rw [hs] at hstep
      simp only [stepState] at hstep
      rcases hstep with heq | hne
      · rw [heq]
        exact h
      · exact hne
    | abortedE st2 evs =>
      simp only []
      rw [hs] at hstep
      simp only [stepState] at hstep
      rcases hstep with heq | hne
      · rw [heq]
        exact h
      · exact hne

/-- Claim C1 amended witness: a device-error accumulator survives a
succeeding entry unchanged as a non-success code. -/
theorem c1_accumulator_never_resets_witness :
    (runValidateAndMove none 0 ⟨ShellStatus.deviceError, none, none, ['d']⟩
        [(⟨['a'], ['s', 'a'], 0, EfiStatus.success, some 0⟩,
          ⟨false, false, false, PromptResponse.yes, EfiStatus.success⟩)]).1.shellStatus ≠
      ShellStatus.success :=
  c1_accumulator_never_resets none 0 ⟨ShellStatus.deviceError, none, none, ['d']⟩
    [(⟨['a'], ['s', 'a'], 0, EfiStatus.success, some 0⟩,
      ⟨false, false, false, PromptResponse.yes, EfiStatus.success⟩)] (by decide)

/-- Claim C5 counterexample: the same-volume branch mutates the batch
destination path: with `DestPath = "f:b"` and source `"f:a"` (same volume,
so no cross-volume trailing-separator trim applies), one iteration
rewrites `DestPath` to `"b"` - the in-place map-info chop of Mv.c:360-362
- which is neither the original value nor a trailing-separator trim of
it. -/
theorem c5_counterexample :
    (stepState (validateAndMoveStep none 0
        ⟨ShellStatus.success, none, none, ['f', ':', 'b']⟩
        ⟨['a'], ['f', ':', 'a'], 0, EfiStatus.success, some 0⟩
        ⟨false, false, false, PromptResponse.yes, EfiStatus.success⟩)).destPath = ['b'] ∧
    isBetweenFileSystem ['f', ':', 'a'] none ['f', ':', 'b'] = false ∧
    (['b'] : Str) ≠ ['f', ':', 'b'] ∧
    (['b'] : Str) ≠ stripTrailingBs ['f', ':', 'b'] := by
  refine ⟨by decide, by decide, by decide, by decide⟩

/-- Claim C5 (amended): across any single iteration of the batch loop the
destination path takes one of exactly three values: unchanged; its
trailing separators stripped (the lazy trim before a cross-volume move);
or its volume qualifier chopped off (the same-volume branch's in-place
map-info removal at Mv.c:360-362, which the original claim did not
allow). -/
theorem c5_dest_path_evolution (cwd : Option Str) (da : Nat) (st : BatchState)
    (node : FileNode) (env : EntryEnv) :
    (stepState (validateAndMoveStep cwd da st node env)).destPath = st.destPath ∨
    (stepState (validateAndMoveStep cwd da st node env)).destPath =
      stripTrailingBs st.destPath ∨
    (stepState (validateAndMoveStep cwd da st node env)).destPath =
      chopMapInfo st.destPath :=
  (step_frame cwd da st node env).2

theorem conflictMoveStage_sticky (cwd : Option Str) (st : BatchState) (node : FileNode)
    (env : EntryEnv) (fdp : Option Str) (target : Str)
    (h : st.response = some PromptResponse.all) :
    ∃ st2 evs2, conflictMoveStage cwd st node env fdp target = StepOut.next st2 evs2 ∧
      st2.response = some PromptResponse.all ∧
      (∀ fn, Event.prompted fn ∉ evs2) ∧
      (env.targetExists = true → Event.deletedTarget target ∈ evs2) := by
  unfold conflictMoveStage
  cases hte : env.targetExists with
  | false =>
    simp only [hte, Bool.false_and, Bool.false_eq_true, if_false]
    obtain ⟨st2, ev1, heq, hnp, hrs⟩ := moveStage_next cwd st node env fdp ([] ++ [])
    refine ⟨st2, _, heq, ?_, ?_, ?_⟩
    · rw [hrs, h]
    · intro fn hm
      simp only [List.nil_append, List.mem_singleton] at hm
      exact hnp fn hm.symm
    · intro hc
      exact absurd hc (by simp)
  | true =>
    simp only [hte, h, Option.isNone_some, Bool.and_false, Bool.false_eq_true, if_false,
      Option.getD_some, if_true]
    obtain ⟨st2, ev1, heq, hnp, hrs⟩ := moveStage_next cwd
      { st with response := some PromptResponse.all, respOut := some PromptResponse.all }
      node env fdp ([] ++ [Event.deletedTarget target])
    refine ⟨st2, _, heq, ?_, ?_, ?_⟩
    · rw [hrs]
    · intro fn hm
      simp only [List.nil_append, List.mem_append, List.mem_singleton] at hm
      rcases hm with hm | hm
      · exact Event.noConfusion hm
      · exact hnp fn hm.symm
    · intro _
      simp

theorem step_sticky (cwd : Option Str) (da : Nat) (st : BatchState) (node : FileNode)
    (env : EntryEnv) (h : st.response = some PromptResponse.all) :
    (stepState (validateAndMoveStep cwd da st node env)).response =
      some PromptResponse.all ∧
    (∀ fn, Event.prompted fn ∉ stepEvents (validateAndMoveStep cwd da st node env)) := by
  unfold validateAndMoveStep
  cases hb : env.breakFlag with
  | true => simp [hb, stepState, stepEvents, h]
  | false =>
    simp only [hb, Bool.false_eq_true, if_false]
    cases hdn : dotName node.fileName with
    | true => simp [hdn, stepState, stepEvents, h]
    | false =>
      simp only [hdn, Bool.false_eq_true, if_false]
      cases hv : isValidMove node.fullName cwd
          ((if env.destIsDir then some (createFullDestPath st.destPath node.fileName)
            else none).getD st.destPath) node.attr da node.status with
      | false => simp [hv, stepState, stepEvents, h]
      | true =>
        rw [if_neg (by simp : ¬(true = false))]
        obtain ⟨st2, evs2, heq, hr, hnp, -⟩ :=
          conflictMoveStage_sticky cwd st node env _ _ h
        rw [heq]
        exact ⟨by simpa [stepState] using hr, by simpa [stepEvents] using hnp⟩

theorem run_sticky_all (cwd : Option Str) (da : Nat) (st : BatchState)
    (entries : List (FileNode × EntryEnv)) (h : st.response = some PromptResponse.all) :
    (runValidateAndMove cwd da st entries).1.response = some PromptResponse.all ∧
    (∀ fn, Event.prompted fn ∉ (runValidateAndMove cwd da st entries).2.1) := by
  induction entries generalizing st with
  | nil =>
    simp [runValidateAndMove, h]
  | cons e rest ih =>
    have hstep := step_sticky cwd da st e.1 e.2 h
    rw [runValidateAndMove]
    cases hs : validateAndMoveStep cwd da st e.1 e.2 with
    | next st2 evs =>
      rw [hs] at hstep
      simp only [stepState, stepEvents] at hstep
      have hrest := ih st2 hstep.1
      simp only []
      refine ⟨hrest.1, ?_⟩
      intro fn hm
      rw [List.mem_append] at hm
      rcases hm with hm | hm
      · exact hstep.2 fn hm
      · exact hrest.2 fn hm
    | stop st2 evs =>
      rw [hs] at hstep
      simp only [stepState, stepEvents] at hstep
      exact hstep
    | abortedE st2 evs =>
      rw [hs] at hstep
      simp only [stepState, stepEvents] at hstep
      exact hstep

/-- Claim C6: the conflict decision "All" is sticky across the batch: once
the running response holds All, the whole remaining batch issues no prompt
at all and still ends with the response All; moreover any entry whose
destination exists (and which passes the skip and validity gates) is
overwritten - its existing target is deleted and the move executes -
without the prompt provider being invoked, the sticky response surviving. -/
theorem c6_all_is_sticky (cwd : Option Str) (da : Nat) (st : BatchState)
    (entries : List (FileNode × EntryEnv)) (h : st.response = some PromptResponse.all) :
    (runValidateAndMove cwd da st entries).1.response = some PromptResponse.all ∧
    (∀ fn, Event.prompted fn ∉ (runValidateAndMove cwd da st entries).2.1) ∧
    (∀ node env, env.breakFlag = false → dotName node.fileName = false →
      env.targetExists = true →
      isValidMove node.fullName cwd (targetOf st.destPath node env) node.attr da
        node.status = true →
      ∃ st2 evs, validateAndMoveStep cwd da st node env = StepOut.next st2 evs ∧
        Event.deletedTarget (targetOf st.destPath node env) ∈ evs ∧
        (∀ fn, Event.prompted fn ∉ evs) ∧
        st2.response = some PromptResponse.all) := by
  refine ⟨(run_sticky_all cwd da st entries h).1, (run_sticky_all cwd da st entries h).2, ?_⟩
  intro node env hbf hdn hte hv
  unfold targetOf at hv
  unfold validateAndMoveStep
  simp only [hbf, Bool.false_eq_true, if_false, hdn, hv]
  rw [if_neg (by simp : ¬(true = false))]
  obtain ⟨st2, evs2, heq, hr, hnp, hdel⟩ := conflictMoveStage_sticky cwd st node env
    (if env.destIsDir then some (createFullDestPath st.destPath node.fileName) else none)
    ((if env.destIsDir then some (createFullDestPath st.destPath node.fileName)
      else none).getD st.destPath) h
  exact ⟨st2, evs2, heq, hdel hte, hnp, hr⟩

/-- Claim C6 witness: a batch of one colliding entry processed under a
sticky All response prompts nobody and keeps the response All. -/
theorem c6_all_is_sticky_witness :
    (runValidateAndMove none 0
        ⟨ShellStatus.success, some PromptResponse.all, some PromptResponse.all, ['d']⟩
        [(⟨['a'], ['s', 'a'], 0, EfiStatus.success, some 0⟩,
          ⟨false, false, true, PromptResponse.yes, EfiStatus.success⟩)]).1.response =
      some PromptResponse.all ∧
    (∀ fn, Event.prompted fn ∉
      (runValidateAndMove none 0
        ⟨ShellStatus.success, some PromptResponse.all, some PromptResponse.all, ['d']⟩
        [(⟨['a'], ['s', 'a'], 0, EfiStatus.success, some 0⟩,
          ⟨false, false, true, PromptResponse.yes, EfiStatus.success⟩)]).2.1) :=
  ⟨(c6_all_is_sticky none 0
      ⟨ShellStatus.success, some PromptResponse.all, some PromptResponse.all, ['d']⟩
      [(⟨['a'], ['s', 'a'], 0, EfiStatus.success, some 0⟩,
        ⟨false, false, true, PromptResponse.yes, EfiStatus.success⟩)] rfl).1,
   (c6_all_is_sticky none 0
      ⟨ShellStatus.success, some PromptResponse.all, some PromptResponse.all, ['d']⟩
      [(⟨['a'], ['s', 'a'], 0, EfiStatus.success, some 0⟩,
        ⟨false, false, true, PromptResponse.yes, EfiStatus.success⟩)] rfl).2.1⟩

/-- Claim C7: a Cancel conflict decision aborts the whole batch at once:
the run returns SHELL_ABORTED, the only event of the iteration is the one
prompt (no delete and no move are performed for that entry), no later
entry is processed at all, and the cancel decision is propagated to the
caller through the `Resp` out-parameter. -/
theorem c7_cancel_aborts (cwd : Option Str) (da : Nat) (st : BatchState)
    (node : FileNode) (env : EntryEnv) (rest : List (FileNode × EntryEnv))
    (hresp : st.response = none) (hbf : env.breakFlag = false)
    (hdn : dotName node.fileName = false)
    (hv : isValidMove node.fullName cwd (targetOf st.destPath node env) node.attr da
      node.status = true)
    (hte : env.targetExists = true) (hpr : env.promptResp = PromptResponse.cancel) :
    runValidateAndMove cwd da st ((node, env) :: rest) =
      ({ st with response := some PromptResponse.cancel,
                 respOut := some PromptResponse.cancel },
        [Event.prompted node.fileName], true) ∧
    batchFinalStatus (runValidateAndMove cwd da st ((node, env) :: rest)) =
      ShellStatus.aborted := by
  have hstep : validateAndMoveStep cwd da st node env =
      StepOut.abortedE
        { st with response := some PromptResponse.cancel,
                  respOut := some PromptResponse.cancel }
        [Event.prompted node.fileName] := by
    unfold targetOf at hv
    unfold validateAndMoveStep conflictMoveStage
    simp only [hbf, Bool.false_eq_true, if_false, hdn, hv]
    rw [if_neg (by simp : ¬(true = false))]
    simp [hte, hresp, hpr]
  constructor
  · rw [runValidateAndMove, hstep]
  · rw [runValidateAndMove, hstep]
    simp [batchFinalStatus]

/-- Claim C7 witness: a three-entry batch whose first entry's prompt
answers Cancel stops with only that prompt attempted. -/
theorem c7_cancel_aborts_witness :
    runValidateAndMove none 0 ⟨ShellStatus.success, none, none, ['d']⟩
        ((⟨['a'], ['s', 'a'], 0, EfiStatus.success, some 0⟩,
          ⟨false, false, true, PromptResponse.cancel, EfiStatus.success⟩) ::
         [(⟨['b'], ['s', 'b'], 0, EfiStatus.success, some 0⟩,
           ⟨false, false, true, PromptResponse.cancel, EfiStatus.success⟩),
          (⟨['c'], ['s', 'c'], 0, EfiStatus.success, some 0⟩,
           ⟨false, false, true, PromptResponse.cancel, EfiStatus.success⟩)]) =
      ({ shellStatus := ShellStatus.success, response := some PromptResponse.cancel,
         respOut := some PromptResponse.cancel, destPath := ['d'] },
        [Event.prompted ['a']], true) :=
  (c7_cancel_aborts none 0 ⟨ShellStatus.success, none, none, ['d']⟩
    ⟨['a'], ['s', 'a'], 0, EfiStatus.success, some 0⟩
    ⟨false, false, true, PromptResponse.cancel, EfiStatus.success⟩
    [(⟨['b'], ['s', 'b'], 0, EfiStatus.success, some 0⟩,
      ⟨false, false, true, PromptResponse.cancel, EfiStatus.success⟩),
     (⟨['c'], ['s', 'c'], 0, EfiStatus.success, some 0⟩,
      ⟨false, false, true, PromptResponse.cancel, EfiStatus.success⟩)]
    rfl rfl (by decide) (by decide) rfl rfl).1

/-- Claim C2 amended witness: the rule characterisation instantiated at a
concrete valid move. -/
theorem c2_case_sensitive_rules_witness :
    isValidMove ['a'] none ['b'] 0 0 EfiStatus.success = true ↔
      (none : Option Str) ≠ some ['a'] ∧
      0 &&& EFI_FILE_READ_ONLY = 0 ∧
      EfiStatus.success ≠ EfiStatus.writeProtected ∧
      0 &&& EFI_FILE_READ_ONLY = 0 ∧
      List.isPrefixOf ['a'] (stripTrailingBs (dropLeadingBs ['b'])) = false :=
  c2_case_sensitive_rules ['a'] none ['b'] 0 0 EfiStatus.success

/-- Claim C5 amended witness: the destination-path evolution instantiated
at a concrete same-volume iteration. -/
theorem c5_dest_path_evolution_witness :
    (stepState (validateAndMoveStep none 0
        ⟨ShellStatus.success, none, none, ['f', ':', 'b']⟩
        ⟨['a'], ['f', ':', 'a'], 0, EfiStatus.success, some 0⟩
        ⟨false, false, false, PromptResponse.yes, EfiStatus.success⟩)).destPath =
      ['f', ':', 'b'] ∨
    (stepState (validateAndMoveStep none 0
        ⟨ShellStatus.success, none, none, ['f', ':', 'b']⟩
        ⟨['a'], ['f', ':', 'a'], 0, EfiStatus.success, some 0⟩
        ⟨false, false, false, PromptResponse.yes, EfiStatus.success⟩)).destPath =
      stripTrailingBs ['f', ':', 'b'] ∨
    (stepState (validateAndMoveStep none 0
        ⟨ShellStatus.success, none, none, ['f', ':', 'b']⟩
        ⟨['a'], ['f', ':', 'a'], 0, EfiStatus.success, some 0⟩
        ⟨false, false, false, PromptResponse.yes, EfiStatus.success⟩)).destPath =
      chopMapInfo ['f', ':', 'b'] :=
  c5_dest_path_evolution none 0 ⟨ShellStatus.success, none, none, ['f', ':', 'b']⟩
    ⟨['a'], ['f', ':', 'a'], 0, EfiStatus.success, some 0⟩
    ⟨false, false, false, PromptResponse.yes, EfiStatus.success⟩
